import Mathlib

/-!
A shallow embedding of `pai_tts.py`, a script that turns a list of text
items into per-item MP3 files (via an external TTS call), renders an
`index.html` page embedding the (text, audio path) pairs, optionally
batch-builds every questionnaire under `questionnaires/`, and serves the
result. The filesystem is modelled as association lists from path strings
to contents, where a later write shadows an earlier entry with the same
key (lookup takes the first match). The external TTS call is modelled as
writing the pair (text, voice) at the target path.
-/

namespace PaiTts

/-- ASCII whitespace characters removed by Python `str.strip()` with no argument. -/
def isPySpace (c : Char) : Bool :=
  c == ' ' || c == '\t' || c == '\n' || c == '\r' || c == '\x0b' || c == '\x0c'

/-- Python `line.strip()`: drop leading and trailing whitespace. -/
def pyStrip (s : String) : String :=
  String.mk (((s.data.dropWhile isPySpace).reverse.dropWhile isPySpace).reverse)

/-- The item-reading comprehension of `main` (line 259) and
`build_all_questionnaires` (line 209):
`[line.strip() for line in text.splitlines() if line.strip()]`,
applied to the lines of the file. -/
def readItems (lines : List String) : List String :=
  lines.filterMap (fun l => if pyStrip l = "" then none else some (pyStrip l))

/-- Decimal digit characters of `n`, most significant first, by repeated
division; the fuel argument bounds the recursion. Models the Python decimal
integer formatting. -/
def decRepAux : Nat → Nat → List Char
  | 0, _ => []
  | fuel + 1, n =>
    if n = 0 then [] else decRepAux fuel (n / 10) ++ [Nat.digitChar (n % 10)]

/-- Decimal representation of `n` (Python `str`/`d` formatting; `0` is `"0"`). -/
def decRepr (n : Nat) : List Char :=
  if n = 0 then ['0'] else decRepAux n n

/-- Python `f"{n:04d}"`: the decimal representation zero-padded on the left to
width (at least) 4. -/
def pad4 (n : Nat) : String :=
  String.mk (List.replicate (4 - (decRepr n).length) '0' ++ decRepr n)

/-- The target path of `build_audio` (line 159): `outdir / f"{idx:04d}.mp3"`. -/
def mp3Path (outdir : String) (idx : Nat) : String :=
  outdir ++ "/" ++ pad4 idx ++ ".mp3"

/-- The relative audio path embedded by `make_index` (line 168):
`f"audio/{idx:04d}.mp3"`. -/
def audioRel (idx : Nat) : String :=
  "audio/" ++ pad4 idx ++ ".mp3"

/-- Contents of a generated MP3 file: the synthesized text and the voice. -/
structure AudioData where
  text : String
  voice : String
deriving DecidableEq

/-- The set of existing MP3 files: path to contents, first match shadows. -/
abbrev MpList := List (String × AudioData)

/-- Association-list lookup, first match wins (models an overwriting store). -/
def findVal {α : Type} (l : List (String × α)) (p : String) : Option α :=
  match l with
  | [] => none
  | e :: rest => if e.1 = p then some e.2 else findVal rest p

/-- Python `Path.exists()` on the MP3 store. -/
def existsFile (fs : MpList) (p : String) : Bool :=
  (findVal fs p).isSome

/-- Function `synthesize` (lines 151-154): the external TTS call, modelled as writing
the pair (text, voice) to `outfile`. -/
def synthesize (text voice outfile : String) (fs : MpList) : MpList :=
  (outfile, ⟨text, voice⟩) :: fs

/-- The loop of `build_audio` (lines 158-161) started at index `idx`: for each
item, synthesize to `outdir/{idx:04d}.mp3` when `force` is set or the file
does not exist. Returns the resulting store and the indices synthesized. -/
def buildAudioFrom (voice outdir : String) (force : Bool) :
    Nat → List String → MpList → MpList × List Nat
  | _, [], fs => (fs, [])
  | idx, line :: rest, fs =>
    if force || !existsFile fs (mp3Path outdir idx) then
      let r := buildAudioFrom voice outdir force (idx + 1) rest
        (synthesize line voice (mp3Path outdir idx) fs)
      (r.1, idx :: r.2)
    else
      buildAudioFrom voice outdir force (idx + 1) rest fs

/-- Function `build_audio` (lines 156-161). -/
def build_audio (items : List String) (voice outdir : String) (force : Bool)
    (fs : MpList) : MpList × List Nat :=
  buildAudioFrom voice outdir force 0 items fs

/-- One entry of the `mapping` list rendered into the page by `make_index`. -/
structure RItem where
  text : String
  audio : String
deriving DecidableEq

/-- The comprehension of `make_index` (lines 167-170), mirroring
`enumerate(items)` from index `k`. -/
def mappingFrom (k : Nat) : List String → List RItem
  | [] => []
  | line :: rest => ⟨line, audioRel k⟩ :: mappingFrom (k + 1) rest

/-- The `mapping` list embedded (as JSON) into the generated page. -/
def make_index_mapping (items : List String) : List RItem :=
  mappingFrom 0 items

/-- Python `len(item.split())`: number of maximal runs of non-whitespace. -/
def countWordsAux : Bool → List Char → Nat
  | _, [] => 0
  | inWord, c :: cs =>
    if isPySpace c then countWordsAux false cs
    else (if inWord then 0 else 1) + countWordsAux true cs

def wordCount (s : String) : Nat := countWordsAux false s.data

/-- One questionnaire card of the selection page (lines 218-228). -/
structure Card where
  name : String
  numQuestions : Nat
  numWords : Nat
  estMinutes : Nat
  estSeconds : Nat
deriving DecidableEq

/-- The card built for one questionnaire (lines 218-228). -/
def mkCard (stem : String) (items : List String) : Card :=
  { name := stem
    numQuestions := items.length
    numWords := (items.map wordCount).sum
    estMinutes := items.length * 15 / 60
    estSeconds := items.length * 15 % 60 }

/-- Contents of a generated HTML file. -/
inductive Page where
  | indexPage (mapping : List RItem)
  | selectionPage (cards : List Card)
deriving DecidableEq

/-- The world the script interacts with: readable text files (path to
lines), the `questionnaires/` directory and its `*.txt` files (stem to
lines; `glob` skips dotfiles, so stems are the filenames minus `.txt`),
whether `selection_template.html` is readable, and the files written so
far. -/
structure Env where
  textFiles : List (String × List String)
  questionnairesDirExists : Bool
  questionnaires : List (String × List String)
  selectionTemplateExists : Bool
  mp3s : MpList
  htmlFiles : List (String × Page)
deriving DecidableEq

/-- Python `Path.write_text` for a rendered page. -/
def writeHtml (env : Env) (path : String) (p : Page) : Env :=
  { env with htmlFiles := (path, p) :: env.htmlFiles }

/-- Python `Path.exists()` on the HTML store. -/
def existsHtml (l : List (String × Page)) (p : String) : Bool :=
  (findVal l p).isSome

/-- Function `make_index` (lines 166-172): render the template with the mapping and
write `outdir/index.html`. -/
def make_index (items : List String) (outdir : String) (env : Env) : Env :=
  writeHtml env (outdir ++ "/index.html") (Page.indexPage (make_index_mapping items))

/-- One iteration of the `build_all_questionnaires` loop (lines 203-229):
read the items of the questionnaire, build its audio, write its index page, and
produce its selection card. -/
def buildQuestionnaire (voice : String) (force : Bool) (projectDir : String)
    (env : Env) (q : String × List String) : Env × Card :=
  let items := readItems q.2
  let qdir := projectDir ++ "/" ++ q.1
  let env1 := { env with
    mp3s := (build_audio items voice (qdir ++ "/audio") force env.mp3s).1 }
  (make_index items qdir env1, mkCard q.1 items)

/-- The `for questionnaire_file in ...` loop (lines 203-229), returning the
final world and the cards in file order. -/
def buildLoop (voice : String) (force : Bool) (projectDir : String) :
    List (String × List String) → Env → Env × List Card
  | [], env => (env, [])
  | q :: rest, env =>
    let r1 := buildQuestionnaire voice force projectDir env q
    let r := buildLoop voice force projectDir rest r1.1
    (r.1, r1.2 :: r.2)

/-- Outcome of `build_all_questionnaires`: normal return, `sys.exit`, or an
uncaught exception (the template read on line 232). -/
inductive BuildAllResult where
  | ok (env : Env)
  | exit (msg : String)
  | crash (env : Env) (msg : String)
deriving DecidableEq

/-- Function `build_all_questionnaires` (lines 189-237). The two `sys.exit` guards
run before anything is written; the selection template is read only after
every questionnaire has been built, and a missing template raises. -/
def build_all_questionnaires (voice : String) (force : Bool)
    (projectDir : String) (env : Env) : BuildAllResult :=
  if env.questionnairesDirExists = false then
    .exit "❌ questionnaires/ directory not found"
  else if env.questionnaires = [] then
    .exit "❌ No questionnaire files found in questionnaires/ directory"
  else
    let r := buildLoop voice force projectDir env.questionnaires env
    if env.selectionTemplateExists then
      .ok (writeHtml r.1 (projectDir ++ "/selection.html") (Page.selectionPage r.2))
    else
      .crash r.1 "FileNotFoundError: selection_template.html"

/-- Parsed command-line arguments (lines 243-250). -/
structure Args where
  items_file : Option String
  voice : String
  serve_only : Bool
  force : Bool
  port : Nat
  build_all : Bool
deriving DecidableEq

/-- Outcome of `main`: `sys.exit` with a message, an uncaught exception, or
the blocking `serve(project_dir, port)` call being reached. -/
inductive MainResult where
  | exited (env : Env) (msg : String)
  | crashed (env : Env) (msg : String)
  | served (env : Env) (directory : String) (port : Nat)
deriving DecidableEq

/-- The built-in fallback items of `main` (lines 263-267). -/
def defaultItems : List String :=
  ["Please state your full name.",
   "On a scale from one to ten, how would you rate your current mood?",
   "Have you experienced any headaches in the past week?"]

def noSiteMsg : String := "❌ No site built yet; run without --serve-only first."

/-- Lines 273-276 of `main`: serve only when `project_dir/index.html` exists. -/
def serveCheck (env : Env) (dir : String) (port : Nat) : MainResult :=
  if existsHtml env.htmlFiles (dir ++ "/index.html") then .served env dir port
  else .exited env noSiteMsg

/-- Function `main` (lines 242-276) after argument parsing. -/
def main (args : Args) (env : Env) : MainResult :=
  let projectDir := "tts_site"
  if args.build_all then
    match build_all_questionnaires args.voice args.force projectDir env with
    | .ok env2 => serveCheck env2 projectDir args.port
    | .exit msg => .exited env msg
    | .crash env2 msg => .crashed env2 msg
  else if args.serve_only = false then
    match args.items_file with
    | some f =>
      match findVal env.textFiles f with
      | none => .exited env ("❌ items_file \x27" ++ f ++ "\x27 not found")
      | some lines =>
        let items := readItems lines
        let env2 := { env with
          mp3s := (build_audio items args.voice (projectDir ++ "/audio")
            args.force env.mp3s).1 }
        serveCheck (make_index items projectDir env2) projectDir args.port
    | none =>
      let items := defaultItems
      let env2 := { env with
        mp3s := (build_audio items args.voice (projectDir ++ "/audio")
          args.force env.mp3s).1 }
      serveCheck (make_index items projectDir env2) projectDir args.port
  else
    serveCheck env projectDir args.port

/-- Spec-side description (claim C1) of the page items: the non-empty
lines of the file, each stripped of surrounding whitespace, in order. -/
def specNonEmptyLines (lines : List String) : List String :=
  (lines.map pyStrip).filter (fun s => decide (s ≠ ""))

/-- Numeric value of a decimal digit character. -/
def charVal (c : Char) : Nat := c.toNat - 48

/-- Value of a digit-character list, least significant digit first. -/
def valLE : List Char → Nat
  | [] => 0
  | c :: cs => charVal c + 10 * valLE cs

/-- Value of a digit-character list, most significant digit first. -/
def wholeVal (l : List Char) : Nat := valLE l.reverse

/-- A concrete world with a single one-item questionnaire. -/
def wEnv : Env :=
  { textFiles := []
    questionnairesDirExists := true
    questionnaires := [("q1", ["hi"])]
    selectionTemplateExists := true
    mp3s := []
    htmlFiles := [] }

/-- The world after a batch build from `wEnv`. -/
def wEnv2 : Env :=
  match build_all_questionnaires "v" false "tts_site" wEnv with
  | .ok e => e
  | _ => wEnv

/-- A world with no `questionnaires/` directory and nothing built. -/
def wEnvNoDir : Env :=
  { textFiles := []
    questionnairesDirExists := false
    questionnaires := []
    selectionTemplateExists := true
    mp3s := []
    htmlFiles := [] }

/-- A world whose `questionnaires/` directory holds no `.txt` file. -/
def wEnvEmptyDir : Env :=
  { textFiles := []
    questionnairesDirExists := true
    questionnaires := []
    selectionTemplateExists := true
    mp3s := []
    htmlFiles := [] }

def wArgsServeOnly : Args :=
  { items_file := none, voice := "v", serve_only := true, force := false
    port := 8000, build_all := false }

def wArgsMissing : Args :=
  { items_file := some "absent.txt", voice := "v", serve_only := false
    force := false, port := 8000, build_all := false }

def wArgsBuildAll : Args :=
  { items_file := none, voice := "v", serve_only := false, force := false
    port := 8000, build_all := true }

def wArgsDefaults : Args :=
  { items_file := none, voice := "v", serve_only := false, force := false
    port := 8000, build_all := false }

lemma charVal_digitChar (d : Nat) (h : d < 10) : charVal (Nat.digitChar d) = d := by
  interval_cases d <;> rfl

lemma valLE_append (xs ys : List Char) :
    valLE (xs ++ ys) = valLE xs + 10 ^ xs.length * valLE ys := by
  induction xs with
  | nil => simp [valLE]
  | cons c cs ih =>
    show charVal c + 10 * valLE (cs ++ ys)
      = charVal c + 10 * valLE cs + 10 ^ (cs.length + 1) * valLE ys
    rw [ih, pow_succ]
    ring

lemma valLE_replicate_zero (k : Nat) : valLE (List.replicate k '0') = 0 := by
  induction k with
  | zero => rfl
  | succ n ih =>
    rw [List.replicate_succ]
    show charVal '0' + 10 * valLE (List.replicate n '0') = 0
    rw [ih]
    rfl

lemma decRepAux_val (fuel : Nat) : ∀ n, n ≤ fuel → wholeVal (decRepAux fuel n) = n := by
  induction fuel with
  | zero =>
    intro n hn
    interval_cases n
    rfl
  | succ f ih =>
    intro n hn
    by_cases h0 : n = 0
    · subst h0; rfl
    · have hdiv : n / 10 ≤ f := by
        have : n / 10 < n := Nat.div_lt_self (Nat.pos_of_ne_zero h0) (by norm_num)
        omega
      have hrec := ih (n / 10) hdiv
      rw [decRepAux, if_neg h0]
      unfold wholeVal at hrec ⊢
      rw [List.reverse_append, List.reverse_singleton, List.singleton_append]
      show charVal (Nat.digitChar (n % 10)) + 10 * valLE (decRepAux f (n / 10)).reverse = n
      rw [charVal_digitChar (n % 10) (Nat.mod_lt _ (by norm_num)), hrec]
      omega

lemma wholeVal_decRepr (n : Nat) : wholeVal (decRepr n) = n := by
  by_cases h0 : n = 0
  · subst h0; rfl
  · rw [decRepr, if_neg h0]
    exact decRepAux_val n n le_rfl

lemma wholeVal_pad (k : Nat) (l : List Char) :
    wholeVal (List.replicate k '0' ++ l) = wholeVal l := by
  unfold wholeVal
  rw [List.reverse_append, valLE_append, List.reverse_replicate, valLE_replicate_zero]
  simp

lemma pad4_inj {m n : Nat} (h : (pad4 m).data = (pad4 n).data) : m = n := by
  have hd : List.replicate (4 - (decRepr m).length) '0' ++ decRepr m
      = List.replicate (4 - (decRepr n).length) '0' ++ decRepr n := h
  have hv := congrArg wholeVal hd
  rwa [wholeVal_pad, wholeVal_pad, wholeVal_decRepr, wholeVal_decRepr] at hv

lemma data_append (a b : String) : (a ++ b).data = a.data ++ b.data := rfl

lemma string_data_inj {a b : String} (h : a.data = b.data) : a = b := by
  cases a; cases b; exact congrArg String.mk h

lemma mp3Path_inj {outdir : String} {i j : Nat}
    (h : mp3Path outdir i = mp3Path outdir j) : i = j := by
  apply pad4_inj
  have hd := congrArg String.data h
  simp only [mp3Path, data_append, List.append_assoc] at hd
  exact List.append_cancel_right
    (List.append_cancel_left (List.append_cancel_left hd))

lemma mappingFrom_map_text (items : List String) :
    ∀ k : Nat, (mappingFrom k items).map RItem.text = items := by
  induction items with
  | nil => intro k; rfl
  | cons a l ih => intro k; simp [mappingFrom, ih]

lemma mappingFrom_map_audio (items : List String) :
    ∀ k : Nat, (mappingFrom k items).map RItem.audio
      = (List.range' k items.length).map audioRel := by
  induction items with
  | nil => intro k; rfl
  | cons a l ih =>
    intro k
    rw [List.length_cons, List.range'_succ]
    simp [mappingFrom, ih]

lemma readItems_eq_spec (lines : List String) :
    readItems lines = specNonEmptyLines lines := by
  induction lines with
  | nil => rfl
  | cons l rest ih =>
    by_cases h : pyStrip l = ""
    · simp [readItems, specNonEmptyLines, List.filterMap_cons, h] at ih ⊢
      exact ih
    · simp [readItems, specNonEmptyLines, List.filterMap_cons, h] at ih ⊢
      exact ih

/-- C1: for every input file, the item list embedded in the generated page
equals the non-empty lines of the file (each stripped of surrounding
whitespace), in the same order, and the items are paired one-to-one, in
order, with the audio paths of indices 0, 1, ... -/
theorem C1_page_items_match_lines (lines : List String) :
    (make_index_mapping (readItems lines)).map RItem.text = specNonEmptyLines lines ∧
    (make_index_mapping (readItems lines)).map RItem.audio
      = (List.range (readItems lines).length).map audioRel := by
  constructor
  · rw [make_index_mapping, mappingFrom_map_text, readItems_eq_spec]
  · rw [make_index_mapping, mappingFrom_map_audio, List.range_eq_range']

lemma mappingFrom_getElem (items : List String) :
    ∀ (k i : Nat), i < items.length →
      (mappingFrom k items)[i]? = some ⟨items.getD i "", audioRel (k + i)⟩ := by
  induction items with
  | nil => intro k i h; simp at h
  | cons a l ih =>
    intro k i h
    cases i with
    | zero => simp [mappingFrom]
    | succ j =>
      have hj : j < l.length := by simpa using h
      have := ih (k + 1) j hj
      simp only [mappingFrom, List.getElem?_cons_succ, List.getD_cons_succ, this]
      have harith : k + 1 + j = k + (j + 1) := by omega
      rw [harith]

lemma string_append_assoc (a b c : String) : a ++ b ++ c = a ++ (b ++ c) := by
  apply string_data_inj
  simp [data_append, List.append_assoc]

/-- C5: the audio path of an item is a function of its index alone: entry
`i` of the page mapping pairs item `i` with `audio/{i:04d}.mp3` whatever
the items are, and the file path `build_audio` writes for index `i` under
`dir/audio` is the very path the page (served from `dir`) references. -/
theorem C5_audio_path_deterministic (items : List String) (dir : String) (i : Nat)
    (h : i < items.length) :
    (make_index_mapping items)[i]? = some ⟨items.getD i "", audioRel i⟩ ∧
    mp3Path (dir ++ "/audio") i = dir ++ "/" ++ audioRel i := by
  constructor
  · have := mappingFrom_getElem items 0 i h
    simpa using this
  · apply string_data_inj
    simp only [mp3Path, audioRel, data_append, List.append_assoc]
    exact congrArg (fun l => dir.data ++ l) (by rfl)

theorem C5_audio_path_deterministic_witness :
    (0 < (["one", "two"] : List String).length) ∧
    (make_index_mapping ["one", "two"])[0]? = some ⟨"one", audioRel 0⟩ ∧
    mp3Path ("site" ++ "/audio") 0 = "site" ++ "/" ++ audioRel 0 := by
  refine ⟨by decide, ?_⟩
  exact C5_audio_path_deterministic ["one", "two"] "site" 0 (by decide)

lemma buildAudioFrom_force_synth (voice outdir : String) (items : List String) :
    ∀ (k : Nat) (fs : MpList),
      (buildAudioFrom voice outdir true k items fs).2 = List.range' k items.length := by
  induction items with
  | nil => intro k fs; rfl
  | cons a l ih =>
    intro k fs
    rw [List.length_cons, List.range'_succ]
    simp [buildAudioFrom, ih]

/-- C3: with force set, `build_audio` synthesizes the audio file for every
index of the item list, whatever already exists. -/
theorem C3_force_synthesizes_all (items : List String) (voice outdir : String)
    (fs : MpList) :
    (build_audio items voice outdir true fs).2 = List.range items.length := by
  rw [build_audio, buildAudioFrom_force_synth, List.range_eq_range']

lemma existsFile_synthesize (t v p q : String) (fs : MpList) :
    existsFile (synthesize t v p fs) q = if p = q then true else existsFile fs q := by
  by_cases h : p = q <;> simp [existsFile, synthesize, findVal, h]

lemma buildAudioFrom_synth_ge (voice outdir : String) (force : Bool) (items : List String) :
    ∀ (k : Nat) (fs : MpList) (j : Nat),
      j ∈ (buildAudioFrom voice outdir force k items fs).2 → k ≤ j := by
  induction items with
  | nil => intro k fs j hj; simp [buildAudioFrom] at hj
  | cons a l ih =>
    intro k fs j hj
    simp only [buildAudioFrom] at hj
    split at hj
    · rcases List.mem_cons.mp hj with h | h
      · omega
      · have := ih (k + 1) _ j h
        omega
    · have := ih (k + 1) fs j hj
      omega

lemma buildAudioFrom_mem_iff (voice outdir : String) (items : List String) :
    ∀ (k : Nat) (fs : MpList) (i : Nat), k ≤ i → i < k + items.length →
      (i ∈ (buildAudioFrom voice outdir false k items fs).2 ↔
        existsFile fs (mp3Path outdir i) = false) := by
  induction items with
  | nil =>
    intro k fs i h1 h2
    rw [List.length_nil, Nat.add_zero] at h2
    exact absurd h1 (by omega)
  | cons a l ih =>
    intro k fs i h1 h2
    simp only [buildAudioFrom, Bool.false_or]
    by_cases hex : existsFile fs (mp3Path outdir k) = true
    · rw [hex, if_neg (by simp)]
      by_cases hik : i = k
      · subst hik
        constructor
        · intro hmem
          have := buildAudioFrom_synth_ge voice outdir false l (i + 1) fs i hmem
          omega
        · intro hfalse
          rw [hex] at hfalse
          cases hfalse
      · exact ih (k + 1) fs i (by omega)
          (by simp only [List.length_cons] at h2; omega)
    · have hexf : existsFile fs (mp3Path outdir k) = false := by
        revert hex; cases existsFile fs (mp3Path outdir k) <;> simp
      rw [hexf, if_pos (by simp)]
      by_cases hik : i = k
      · subst hik
        constructor
        · intro _; exact hexf
        · intro _; exact List.mem_cons_self _ _
      · have hne : mp3Path outdir k ≠ mp3Path outdir i :=
          fun he => hik (mp3Path_inj he).symm
        have hstep : existsFile (synthesize a voice (mp3Path outdir k) fs)
            (mp3Path outdir i) = existsFile fs (mp3Path outdir i) := by
          rw [existsFile_synthesize, if_neg hne]
        have hrec := ih (k + 1) (synthesize a voice (mp3Path outdir k) fs) i
          (by omega) (by simp only [List.length_cons] at h2; omega)
        rw [hstep] at hrec
        rw [List.mem_cons, or_iff_right hik]
        exact hrec

lemma buildAudioFrom_exists_mono (voice outdir : String) (force : Bool)
    (items : List String) :
    ∀ (k : Nat) (fs : MpList) (p : String), existsFile fs p = true →
      existsFile (buildAudioFrom voice outdir force k items fs).1 p = true := by
  induction items with
  | nil => intro k fs p h; exact h
  | cons a l ih =>
    intro k fs p h
    simp only [buildAudioFrom]
    split
    · apply ih
      rw [existsFile_synthesize]
      split
      · rfl
      · exact h
    · exact ih (k + 1) fs p h

lemma buildAudioFrom_complete (voice outdir : String) (force : Bool)
    (items : List String) :
    ∀ (k : Nat) (fs : MpList) (i : Nat), k ≤ i → i < k + items.length →
      existsFile (buildAudioFrom voice outdir force k items fs).1
        (mp3Path outdir i) = true := by
  induction items with
  | nil =>
    intro k fs i h1 h2
    rw [List.length_nil, Nat.add_zero] at h2
    exact absurd h1 (by omega)
  | cons a l ih =>
    intro k fs i h1 h2
    simp only [buildAudioFrom]
    by_cases hik : i = k
    · subst hik
      split
      · apply buildAudioFrom_exists_mono
        rw [existsFile_synthesize, if_pos rfl]
      · rename_i hcond
        have hfs : existsFile fs (mp3Path outdir i) = true := by
          revert hcond
          cases force <;> cases hb : existsFile fs (mp3Path outdir i) <;> simp
        exact buildAudioFrom_exists_mono voice outdir force l (i + 1) fs _ hfs
    · split
      · exact ih (k + 1) _ i (by omega)
          (by simp only [List.length_cons] at h2; omega)
      · exact ih (k + 1) fs i (by omega)
          (by simp only [List.length_cons] at h2; omega)

lemma buildAudioFrom_skip_all (voice outdir : String) (items : List String) :
    ∀ (k : Nat) (fs : MpList),
      (∀ i, k ≤ i → i < k + items.length → existsFile fs (mp3Path outdir i) = true) →
      buildAudioFrom voice outdir false k items fs = (fs, []) := by
  induction items with
  | nil => intro k fs _; rfl
  | cons a l ih =>
    intro k fs h
    have hk : existsFile fs (mp3Path outdir k) = true :=
      h k le_rfl (by simp)
    simp only [buildAudioFrom, Bool.false_or, hk, Bool.not_true]
    rw [if_neg (by simp)]
    exact ih (k + 1) fs (fun i h1 h2 =>
      h i (by omega) (by simp only [List.length_cons]; omega))

/-- C2: without force, `build_audio` synthesizes the file for index `i`
exactly when `outdir/{i:04d}.mp3` is absent from the store it starts
from, and a second run on the output of the first run synthesizes nothing and
leaves the store unchanged. -/
theorem C2_skip_iff_missing_and_idempotent (items : List String)
    (voice outdir : String) (fs : MpList) :
    (∀ i, i < items.length →
      (i ∈ (build_audio items voice outdir false fs).2 ↔
        existsFile fs (mp3Path outdir i) = false)) ∧
    build_audio items voice outdir false (build_audio items voice outdir false fs).1 =
      ((build_audio items voice outdir false fs).1, []) := by
  constructor
  · intro i hi
    exact buildAudioFrom_mem_iff voice outdir items 0 fs i (Nat.zero_le i) (by omega)
  · exact buildAudioFrom_skip_all voice outdir items 0 _
      (fun i h1 h2 =>
        buildAudioFrom_complete voice outdir false items 0 fs i h1 (by omega))

theorem C2_skip_iff_missing_and_idempotent_witness :
    (0 ∈ (build_audio ["hello"] "v" "out" false []).2) ∧
    build_audio ["hello"] "v" "out" false (build_audio ["hello"] "v" "out" false []).1 =
      ((build_audio ["hello"] "v" "out" false []).1, []) := by
  constructor
  · exact ((C2_skip_iff_missing_and_idempotent ["hello"] "v" "out" []).1 0
      (by decide)).mpr (by decide)
  · exact (C2_skip_iff_missing_and_idempotent ["hello"] "v" "out" []).2

lemma tts_index_key : ("tts_site" ++ "/index.html" : String) = "tts_site/index.html" :=
  rfl

/-- C4: with `--serve-only` and no `build-all`, when `tts_site/index.html`
is absent, `main` exits with the no-site message and never reaches the
server. -/
theorem C4_serve_only_without_site (args : Args) (env : Env)
    (h1 : args.serve_only = true) (h2 : args.build_all = false)
    (h3 : existsHtml env.htmlFiles "tts_site/index.html" = false) :
    main args env = .exited env noSiteMsg ∧
    ∀ e d p, main args env ≠ MainResult.served e d p := by
  have hmain : main args env = .exited env noSiteMsg := by
    simp [main, serveCheck, h1, h2, tts_index_key, h3]
  refine ⟨hmain, ?_⟩
  intro e d p
  rw [hmain]
  exact fun h => MainResult.noConfusion h

theorem C4_serve_only_without_site_witness :
    main wArgsServeOnly wEnvNoDir = .exited wEnvNoDir noSiteMsg :=
  (C4_serve_only_without_site wArgsServeOnly wEnvNoDir rfl rfl (by decide)).1

/-- C6: an `items_file` argument naming a file that cannot be read makes
`main` exit with the not-found message, with the world untouched. -/
theorem C6_missing_items_file (args : Args) (env : Env) (f : String)
    (h1 : args.build_all = false) (h2 : args.serve_only = false)
    (h3 : args.items_file = some f) (h4 : findVal env.textFiles f = none) :
    main args env = .exited env ("❌ items_file \x27" ++ f ++ "\x27 not found") := by
  simp [main, h1, h2, h3, h4]

theorem C6_missing_items_file_witness :
    main wArgsMissing wEnvNoDir =
      .exited wEnvNoDir ("❌ items_file \x27" ++ "absent.txt" ++ "\x27 not found") :=
  C6_missing_items_file wArgsMissing wEnvNoDir "absent.txt" rfl rfl rfl rfl

/-- C7: under `--build-all`, a missing `questionnaires/` directory, or a
directory with no `.txt` file, makes `main` exit with the matching
message, with the world untouched. -/
theorem C7_build_all_guards (args : Args) (env : Env)
    (hba : args.build_all = true) :
    (env.questionnairesDirExists = false →
      main args env = .exited env "❌ questionnaires/ directory not found") ∧
    (env.questionnairesDirExists = true → env.questionnaires = [] →
      main args env =
        .exited env "❌ No questionnaire files found in questionnaires/ directory") := by
  constructor
  · intro h
    simp [main, hba, build_all_questionnaires, h]
  · intro h he
    simp [main, hba, build_all_questionnaires, h, he]

theorem C7_build_all_guards_witness :
    main wArgsBuildAll wEnvNoDir =
      .exited wEnvNoDir "❌ questionnaires/ directory not found" ∧
    main wArgsBuildAll wEnvEmptyDir =
      .exited wEnvEmptyDir "❌ No questionnaire files found in questionnaires/ directory" :=
  ⟨(C7_build_all_guards wArgsBuildAll wEnvNoDir rfl).1 rfl,
   (C7_build_all_guards wArgsBuildAll wEnvEmptyDir rfl).2 rfl rfl⟩

/-- C9: with no `items_file`, no `--serve-only` and no `--build-all`,
`main` does not fail: it builds the page from the three built-in default
items and reaches the server. -/
theorem C9_no_args_builds_defaults (args : Args) (env : Env)
    (h1 : args.items_file = none) (h2 : args.serve_only = false)
    (h3 : args.build_all = false) :
    ∃ env2 : Env, main args env = .served env2 "tts_site" args.port ∧
      findVal env2.htmlFiles "tts_site/index.html" =
        some (Page.indexPage (make_index_mapping defaultItems)) := by
  refine ⟨make_index defaultItems "tts_site"
    { env with mp3s := (build_audio defaultItems args.voice ("tts_site" ++ "/audio")
        args.force env.mp3s).1 }, ?_, ?_⟩
  · simp [main, h1, h2, h3, serveCheck, make_index, writeHtml, existsHtml, findVal]
  · simp [make_index, writeHtml, findVal, tts_index_key]

theorem C9_no_args_builds_defaults_witness :
    ∃ env2 : Env, main wArgsDefaults wEnvNoDir = .served env2 "tts_site" 8000 ∧
      findVal env2.htmlFiles "tts_site/index.html" =
        some (Page.indexPage (make_index_mapping defaultItems)) :=
  C9_no_args_builds_defaults wArgsDefaults wEnvNoDir rfl rfl rfl

lemma findVal_cons_ne {α : Type} (k p : String) (v : α) (l : List (String × α))
    (h : k ≠ p) : findVal ((k, v) :: l) p = findVal l p := by
  simp [findVal, h]

lemma findVal_writeHtml (env : Env) (k p : String) (pg : Page) (h : k ≠ p) :
    findVal (writeHtml env k pg).htmlFiles p = findVal env.htmlFiles p := by
  simp [writeHtml, findVal, h]

lemma buildQuestionnaire_htmlFiles (voice : String) (force : Bool) (env : Env)
    (q : String × List String) :
    (buildQuestionnaire voice force "tts_site" env q).1.htmlFiles =
      ((("tts_site" ++ "/" ++ q.1) ++ "/index.html"),
        Page.indexPage (make_index_mapping (readItems q.2))) :: env.htmlFiles := rfl

lemma buildQuestionnaire_mp3s (voice : String) (force : Bool) (env : Env)
    (q : String × List String) :
    (buildQuestionnaire voice force "tts_site" env q).1.mp3s =
      (build_audio (readItems q.2) voice (("tts_site" ++ "/" ++ q.1) ++ "/audio")
        force env.mp3s).1 := rfl

lemma ne_of_data_length_ne {a b : String} (h : a.data.length ≠ b.data.length) :
    a ≠ b :=
  fun he => h (congrArg (fun s => s.data.length) he)

lemma qkey_ne_index (s : String) :
    ("tts_site" ++ "/" ++ s) ++ "/index.html" ≠ "tts_site/index.html" := by
  apply ne_of_data_length_ne
  simp [data_append]

lemma qkey_inj {s1 s2 : String}
    (h : ("tts_site" ++ "/" ++ s1) ++ "/index.html"
       = ("tts_site" ++ "/" ++ s2) ++ "/index.html") : s1 = s2 := by
  have hd := congrArg String.data h
  simp only [data_append, List.append_assoc] at hd
  exact string_data_inj
    (List.append_cancel_right (List.append_cancel_left (List.append_cancel_left hd)))

lemma qkey_ne_selection (s : String) :
    ("tts_site" ++ "/" ++ s) ++ "/index.html" ≠ "tts_site" ++ "/selection.html" := by
  intro h
  have hd := congrArg String.data h
  simp only [data_append, List.append_assoc] at hd
  have h1 := List.append_cancel_left hd
  have h1' : (['/'] : List Char) ++
        (s.data ++ ['/', 'i', 'n', 'd', 'e', 'x', '.', 'h', 't', 'm', 'l'])
      = ['/'] ++ ['s', 'e', 'l', 'e', 'c', 't', 'i', 'o', 'n', '.', 'h', 't', 'm', 'l'] :=
    h1
  have h2 := List.append_cancel_left h1'
  have hlen := congrArg List.length h2
  simp [List.length_append] at hlen
  have h2' : s.data ++ ['/', 'i', 'n', 'd', 'e', 'x', '.', 'h', 't', 'm', 'l']
      = ['s', 'e', 'l'] ++ ['e', 'c', 't', 'i', 'o', 'n', '.', 'h', 't', 'm', 'l'] :=
    h2
  have hsuffix := (List.append_inj h2' (by simp; omega)).2
  exact absurd hsuffix (by decide)

lemma buildLoop_findVal_preserved (voice : String) (force : Bool)
    (qs : List (String × List String)) :
    ∀ (env : Env) (p : String),
      (∀ q ∈ qs, (("tts_site" ++ "/" ++ q.1) ++ "/index.html") ≠ p) →
      findVal (buildLoop voice force "tts_site" qs env).1.htmlFiles p =
        findVal env.htmlFiles p := by
  induction qs with
  | nil => intro env p _; rfl
  | cons a rest ih =>
    intro env p h
    simp only [buildLoop]
    rw [ih _ p (fun q hq => h q (List.mem_cons_of_mem a hq))]
    rw [buildQuestionnaire_htmlFiles]
    exact findVal_cons_ne _ _ _ _ (h a (List.mem_cons_self a rest))

lemma buildLoop_mp3_mono (voice : String) (force : Bool)
    (qs : List (String × List String)) :
    ∀ (env : Env) (p : String), existsFile env.mp3s p = true →
      existsFile (buildLoop voice force "tts_site" qs env).1.mp3s p = true := by
  induction qs with
  | nil => intro env p h; exact h
  | cons a rest ih =>
    intro env p h
    simp only [buildLoop]
    apply ih
    rw [buildQuestionnaire_mp3s]
    exact buildAudioFrom_exists_mono voice _ force (readItems a.2) 0 env.mp3s p h

lemma buildLoop_mp3_complete (voice : String) (force : Bool)
    (qs : List (String × List String)) :
    ∀ (env : Env), ∀ q ∈ qs, ∀ i, i < (readItems q.2).length →
      existsFile (buildLoop voice force "tts_site" qs env).1.mp3s
        (mp3Path (("tts_site" ++ "/" ++ q.1) ++ "/audio") i) = true := by
  induction qs with
  | nil => intro env q hq; simp at hq
  | cons a rest ih =>
    intro env q hq i hi
    rcases List.mem_cons.mp hq with rfl | hq'
    · simp only [buildLoop]
      apply buildLoop_mp3_mono
      rw [buildQuestionnaire_mp3s]
      exact buildAudioFrom_complete voice _ force (readItems q.2) 0 env.mp3s i
        (Nat.zero_le i) (by omega)
    · simp only [buildLoop]
      exact ih _ q hq' i hi

lemma buildLoop_html_content (voice : String) (force : Bool)
    (qs : List (String × List String)) :
    ∀ (env : Env), (qs.map Prod.fst).Nodup →
      ∀ q ∈ qs,
        findVal (buildLoop voice force "tts_site" qs env).1.htmlFiles
            (("tts_site" ++ "/" ++ q.1) ++ "/index.html") =
          some (Page.indexPage (make_index_mapping (readItems q.2))) := by
  induction qs with
  | nil => intro env _ q hq; simp at hq
  | cons a rest ih =>
    intro env hnd q hq
    simp only [List.map_cons, List.nodup_cons] at hnd
    rcases List.mem_cons.mp hq with rfl | hq'
    · simp only [buildLoop]
      rw [buildLoop_findVal_preserved voice force rest _ _ ?hne]
      · rw [buildQuestionnaire_htmlFiles]
        simp [findVal]
      case hne =>
        intro r hr heq
        have hr1 : r.1 = q.1 := qkey_inj heq
        exact hnd.1 (hr1 ▸ List.mem_map_of_mem Prod.fst hr)
    · simp only [buildLoop]
      exact ih _ hnd.2 q hq'

lemma buildLoop_cards (voice : String) (force : Bool)
    (qs : List (String × List String)) :
    ∀ env : Env, (buildLoop voice force "tts_site" qs env).2
      = qs.map (fun q => mkCard q.1 (readItems q.2)) := by
  induction qs with
  | nil => intro env; rfl
  | cons a rest ih => intro env; simp [buildLoop, ih, buildQuestionnaire]

lemma build_all_ok_elim {voice : String} {force : Bool} {env env2 : Env}
    (hok : build_all_questionnaires voice force "tts_site" env = .ok env2) :
    env2 = writeHtml (buildLoop voice force "tts_site" env.questionnaires env).1
        ("tts_site" ++ "/selection.html")
        (Page.selectionPage
          (buildLoop voice force "tts_site" env.questionnaires env).2) := by
  simp only [build_all_questionnaires] at hok
  split at hok
  · cases hok
  · split at hok
    · cases hok
    · split at hok
      · injection hok with h; exact h.symm
      · cases hok

/-- C10: a `--build-all` run writes only per-questionnaire index pages and
the selection page, never `tts_site/index.html`; so when that file was not
there before, a `--build-all` invocation of `main` ends in the no-site
exit instead of serving. -/
theorem C10_build_all_leaves_no_root_index (args : Args) (env env2 : Env)
    (hba : args.build_all = true)
    (hok : build_all_questionnaires args.voice args.force "tts_site" env = .ok env2)
    (hno : existsHtml env.htmlFiles "tts_site/index.html" = false) :
    existsHtml env2.htmlFiles "tts_site/index.html" = false ∧
    main args env = .exited env2 noSiteMsg := by
  have hpres : existsHtml env2.htmlFiles "tts_site/index.html" = false := by
    rw [build_all_ok_elim hok]
    unfold existsHtml at hno ⊢
    rw [findVal_writeHtml _ _ _ _ (by decide)]
    rw [buildLoop_findVal_preserved args.voice args.force _ env _
      (fun q _ => qkey_ne_index q.1)]
    exact hno
  refine ⟨hpres, ?_⟩
  simp [main, hba, hok, serveCheck, tts_index_key, hpres]

theorem C10_build_all_leaves_no_root_index_witness :
    main wArgsBuildAll wEnv = .exited wEnv2 noSiteMsg :=
  (C10_build_all_leaves_no_root_index wArgsBuildAll wEnv wEnv2 rfl (by rfl)
    (by decide)).2

/-- C8: a successful `--build-all` writes, for every questionnaire file,
an index page at `tts_site/<stem>/index.html` holding that
item mapping of that questionnaire, leaves an MP3 under
`tts_site/<stem>/audio/` for every item index, and writes one selection
page at `tts_site/selection.html` carrying one card per questionnaire, in
file order. -/
theorem C8_build_all_outputs (voice : String) (force : Bool) (env env2 : Env)
    (hnd : (env.questionnaires.map Prod.fst).Nodup)
    (hok : build_all_questionnaires voice force "tts_site" env = .ok env2) :
    findVal env2.htmlFiles ("tts_site" ++ "/selection.html") =
      some (Page.selectionPage
        (env.questionnaires.map (fun q => mkCard q.1 (readItems q.2)))) ∧
    ∀ q ∈ env.questionnaires,
      findVal env2.htmlFiles (("tts_site" ++ "/" ++ q.1) ++ "/index.html") =
        some (Page.indexPage (make_index_mapping (readItems q.2))) ∧
      ∀ i, i < (readItems q.2).length →
        existsFile env2.mp3s
          (mp3Path (("tts_site" ++ "/" ++ q.1) ++ "/audio") i) = true := by
  rw [build_all_ok_elim hok]
  refine ⟨?_, ?_⟩
  · rw [buildLoop_cards]
    simp [writeHtml, findVal]
  · intro q hq
    refine ⟨?_, ?_⟩
    · rw [findVal_writeHtml _ _ _ _ (Ne.symm (qkey_ne_selection q.1))]
      exact buildLoop_html_content voice force env.questionnaires env hnd q hq
    · intro i hi
      show existsFile
        (buildLoop voice force "tts_site" env.questionnaires env).1.mp3s _ = true
      exact buildLoop_mp3_complete voice force env.questionnaires env q hq i hi

theorem C8_build_all_outputs_witness :
    findVal wEnv2.htmlFiles (("tts_site" ++ "/" ++ "q1") ++ "/index.html") =
      some (Page.indexPage (make_index_mapping (readItems ["hi"]))) :=
  ((C8_build_all_outputs "v" false wEnv wEnv2 (by decide) (by rfl)).2
    ("q1", ["hi"]) (by decide)).1

end PaiTts
